import Mathlib

/-! Verification of the FTE PDF-signing system.

This file is a shallow embedding of the certificate-authority and
incremental-signing code of the repository (`pdf_signature/certificate_authority.py`
and `pdf_signature/utils.py`), together with theorems settling the specified
properties: serial-number allocation, CA bootstrap, CRL construction, the
certification-then-approval signing protocol, its failure behaviour, the
verifier, and the signature-appearance timestamps. -/

namespace FTE

/-! ## Certificate-authority model (`certificate_authority.py`)

The durable CA state is three files under `certificates/ca`: the root
certificate (`ca_cert.pem`), the root private key (`ca_key.pem`) and the serial
counter (`serial.txt`). Each is modelled as an `Option`, `none` meaning the file
is absent. Key generation draws from the process entropy source, modelled by a
counter that numbers successive draws; the clock is epoch seconds. -/

/-- An RSA key pair as produced by `rsa.generate_private_key`, identified by its
modulus size and by which draw of the entropy source produced it. -/
structure KeyPair where
  keySize : Nat
  keyId : Nat
deriving Repr, DecidableEq

/-- An X.509 certificate as assembled by `x509.CertificateBuilder` in
`create_ca_certificate`, restricted to the fields the properties mention. -/
structure Certificate where
  subjectCN : String
  issuerCN : String
  serialNumber : Nat
  publicKey : KeyPair
  isCA : Bool
  pathLength : Option Nat
  keyCertSign : Bool
  crlSign : Bool
  digitalSignature : Bool
  contentCommitment : Bool
  notBefore : Nat
  notAfter : Nat
deriving Repr, DecidableEq

/-- The CA's state: the three persisted files (each `none` when absent), the
current clock value, and the entropy counter. The files survive process
restarts; `now` and `entropy` belong to the running process. -/
structure CAFiles where
  caCert : Option Certificate
  caKey : Option KeyPair
  serialFile : Option Nat
  now : Nat
  entropy : Nat
deriving Repr, DecidableEq

def secondsPerDay : Nat := 86400

def caCommonName : String := "FTE PDF Signing Root CA"

/-- `PDFSigningCA.create_ca_certificate`: generate a fresh 4096-bit RSA key,
build the self-signed root certificate (serial `1`, `CA:true` with path length
0, `digitalSignature`/`keyCertSign`/`cRLSign` usages, valid from now for
`365 * 10` days), write the certificate and encrypted key files, and write the
serial file to `2` unconditionally. -/
def create_ca_certificate (s : CAFiles) : (Certificate × KeyPair) × CAFiles :=
  let key : KeyPair := { keySize := 4096, keyId := s.entropy }
  let cert : Certificate :=
    { subjectCN := caCommonName
      issuerCN := caCommonName
      serialNumber := 1
      publicKey := key
      isCA := true
      pathLength := some 0
      keyCertSign := true
      crlSign := true
      digitalSignature := true
      contentCommitment := false
      notBefore := s.now
      notAfter := s.now + 365 * 10 * secondsPerDay }
  ((cert, key),
   { s with
       caCert := some cert
       caKey := some key
       serialFile := some 2
       entropy := s.entropy + 1 })

/-- `PDFSigningCA.load_ca_certificate`: if either `ca_cert.pem` or `ca_key.pem`
is missing, fall back to `create_ca_certificate`; otherwise read both files and
return their contents without modifying any state. -/
def load_ca_certificate (s : CAFiles) : (Certificate × KeyPair) × CAFiles :=
  match s.caCert, s.caKey with
  | some c, some k => ((c, k), s)
  | some _, none => create_ca_certificate s
  | none, _ => create_ca_certificate s

/-- The value `get_next_serial_number` reads from `serial.txt`: the stored
integer, or `2` when the file is missing. -/
def serialVal (s : CAFiles) : Nat :=
  match s.serialFile with
  | none => 2
  | some n => n

/-- `PDFSigningCA.get_next_serial_number`: read the serial file, write back the
read value plus one, and only then return the read value to the caller. -/
def get_next_serial_number (s : CAFiles) : Nat × CAFiles :=
  (serialVal s, { s with serialFile := some (serialVal s + 1) })

/-- The serials returned by `n` successive `get_next_serial_number` calls, with
the CA state threaded through. Because the counter lives in a persisted file, a
trace started from any state also models resumption after a process restart. -/
def issueSerials (s : CAFiles) : Nat → List Nat × CAFiles
  | 0 => ([], s)
  | n + 1 =>
      let r := get_next_serial_number s
      let rest := issueSerials r.2 n
      (r.1 :: rest.1, rest.2)

/-- A revoked-certificate entry as built by `x509.RevokedCertificateBuilder`. -/
structure RevokedCert where
  serialNumber : Nat
  revocationDate : Nat
deriving Repr, DecidableEq

/-- A certificate revocation list as built by
`x509.CertificateRevocationListBuilder` in `create_crl`. -/
structure CRL where
  issuerCN : String
  lastUpdate : Nat
  nextUpdate : Nat
  revoked : List RevokedCert
deriving Repr, DecidableEq

/-- `PDFSigningCA.create_crl`: load (or, when files are missing, re-create) the
CA, then build and sign a CRL whose `last_update` is the current time,
`next_update` is 30 days later, and whose entries stamp every supplied serial
with the current time. The code keeps no record of issued serials, performs no
membership check on `revoked_serials`, and has no failing path. -/
def create_crl (s : CAFiles) (revoked_serials : List Nat) : CRL × CAFiles :=
  let r := load_ca_certificate s
  ({ issuerCN := r.1.1.subjectCN
     lastUpdate := s.now
     nextUpdate := s.now + 30 * secondsPerDay
     revoked := revoked_serials.map
       (fun n => { serialNumber := n, revocationDate := s.now }) },
   r.2)

/-- Leaf serials the CA has previously handed out from state `s`:
`get_next_serial_number` returns exactly the values from `2` up to (but not
including) the persisted counter, and the root certificate itself holds serial
`1`. -/
def wasIssuedLeaf (s : CAFiles) (n : Nat) : Bool :=
  2 ≤ n && n < serialVal s

/-! ## Revocation (C7) -/

/-- The revocation contract of the specification, stated over the code's
`create_crl`: a revocation entry for a serial appears exactly when that serial
was previously issued by this CA; revoking a never-issued serial must fail
(`NotFoundError`), and since the code has no failing path at all, failure can
only manifest as the entry being absent from the produced CRL. -/
def revokeContract (s : CAFiles) (serials : List Nat) : Prop :=
  ∀ n ∈ serials,
    (((create_crl s serials).1.revoked.any
        (fun r => r.serialNumber == n)) = true ↔
      wasIssuedLeaf s n = true)

/-! ## Signature appearance (`utils.py`, class `SignatureAppearance`)

`build_appearance_dict` samples the clock once, converts it to the Chennai
offset (UTC+05:30), and derives from that single `chennai_time` value both the
`signingdate` PDF date string handed to the CMS layer and the visible `Date:` /
`Time:` text lines. Rendered text is modelled as its byte string (`List Nat`),
so that the renderings stay executable and comparable. -/

/-- A local calendar time, the component view of a Python `datetime` that has
already been converted to the signer's local offset. -/
structure LocalTime where
  year : Nat
  month : Nat
  day : Nat
  hour : Nat
  minute : Nat
  second : Nat
deriving Repr, DecidableEq

/-- Two-digit zero-padded decimal rendering (`strftime` `%d`, `%m`, `%H`, `%M`,
`%S`), as bytes. -/
def pad2 (n : Nat) : List Nat := [48 + n / 10, 48 + n % 10]

/-- Four-digit zero-padded decimal rendering (`strftime` `%Y`), as bytes. -/
def pad4 (n : Nat) : List Nat :=
  [48 + n / 1000, 48 + n / 100 % 10, 48 + n / 10 % 10, 48 + n % 10]

/-- The bytes of the literal `Date: `. -/
def dateLabel : List Nat := [68, 97, 116, 101, 58, 32]

/-- The bytes of the literal `Time: `. -/
def timeLabel : List Nat := [84, 105, 109, 101, 58, 32]

/-- The bytes of the literal ` GMT +5:30` appended to the rendered time. -/
def gmtTail : List Nat := [32, 71, 77, 84, 32, 43, 53, 58, 51, 48]

/-- The bytes of the literal `Location: `. -/
def locationLabel : List Nat := [76, 111, 99, 97, 116, 105, 111, 110, 58, 32]

/-- The bytes of the literal `D:` opening a PDF date string. -/
def pdfDateLabel : List Nat := [68, 58]

/-- The bytes of the Chennai UTC offset suffix of a PDF date string,
`+05` `'` `30` `'`. -/
def chennaiOffset : List Nat := [43, 48, 53, 39, 51, 48, 39]

/-- Signer identity fields, as extracted from the certificate subject by
`get_signer_info_from_cert` (byte strings). -/
structure SignerInfo where
  common_name : List Nat
  organization : List Nat
  organizational_unit : List Nat
  country : List Nat
  state : List Nat
  locality : List Nat
  email : List Nat
deriving Repr, DecidableEq

/-- ASCII upper-casing of one byte (Python `str.upper` on the signer name). -/
def upperByte (b : Nat) : Nat := if 97 ≤ b ∧ b ≤ 122 then b - 32 else b

/-- The `strftime("D:%Y%m%d%H%M%S...")` rendering of a local time with the
given offset suffix. -/
def pdfDateString (t : LocalTime) (offsetSuffix : List Nat) : List Nat :=
  pdfDateLabel ++ pad4 t.year ++ pad2 t.month ++ pad2 t.day ++
    pad2 t.hour ++ pad2 t.minute ++ pad2 t.second ++ offsetSuffix

/-- The appearance dictionary built by
`SignatureAppearance.build_appearance_dict`: basic metadata (`location`,
`contact`, `signingdate`) plus the four `text_box` lines of the
`signature_manual` block. -/
structure AppearanceDict where
  location : List Nat
  contact : List Nat
  signingdate : List Nat
  line1 : List Nat
  line2 : List Nat
  line3 : List Nat
  line4 : List Nat
deriving Repr, DecidableEq

/-- `SignatureAppearance.build_appearance_dict`: render, from the single
`chennai_time` sample, the signing date `D:%Y%m%d%H%M%S+05'30'`, the line
`Date: dd/mm/yyyy`, the line `Time: HH:MM GMT +5:30`, the upper-cased signer
name and the `Location:` line. -/
def build_appearance_dict (info : SignerInfo) (chennai_time : LocalTime) :
    AppearanceDict :=
  let date_str := pad2 chennai_time.day ++ [47] ++ pad2 chennai_time.month ++
    [47] ++ pad4 chennai_time.year
  let time_str := pad2 chennai_time.hour ++ [58] ++ pad2 chennai_time.minute ++
    gmtTail
  { location := info.locality
    contact := info.email
    signingdate := pdfDateString chennai_time chennaiOffset
    line1 := info.common_name.map upperByte
    line2 := dateLabel ++ date_str
    line3 := timeLabel ++ time_str
    line4 := locationLabel ++ info.locality }

/-! Decoders for the two renderings. These are written as parsers, independent
of the renderers, so that agreement of the decoded instants is a statement
about the produced byte strings and not a restatement of the definitions. -/

/-- Decode one ASCII digit byte. -/
def readDigit (b : Nat) : Option Nat :=
  if 48 ≤ b ∧ b ≤ 57 then some (b - 48) else none

/-- Read a two-digit decimal number from the head of a byte string. -/
def read2 : List Nat → Option (Nat × List Nat)
  | a :: b :: rest =>
      match readDigit a, readDigit b with
      | some x, some y => some (x * 10 + y, rest)
      | _, _ => none
  | _ => none

/-- Read a four-digit decimal number from the head of a byte string. -/
def read4 : List Nat → Option (Nat × List Nat)
  | a :: b :: c :: d :: rest =>
      match readDigit a, readDigit b, readDigit c, readDigit d with
      | some x, some y, some z, some w =>
          some (((x * 10 + y) * 10 + z) * 10 + w, rest)
      | _, _, _, _ => none
  | _ => none

/-- Consume an expected literal byte sequence from the head of a byte string. -/
def dropLit : List Nat → List Nat → Option (List Nat)
  | [], s => some s
  | t :: ts, b :: bs => if b = t then dropLit ts bs else none
  | _ :: _, [] => none

/-- The instant (year, month, day, hour, minute — minute precision) denoted by
a PDF date string of the form `D:YYYYMMDDHHMMSS+05'30'`; `none` when the bytes
are not of that shape with the Chennai offset. -/
def instantOfPdfDate (s : List Nat) : Option (Nat × Nat × Nat × Nat × Nat) := do
  let s ← dropLit pdfDateLabel s
  let (y, s) ← read4 s
  let (mo, s) ← read2 s
  let (d, s) ← read2 s
  let (h, s) ← read2 s
  let (mi, s) ← read2 s
  let (_, s) ← read2 s
  let s ← dropLit chennaiOffset s
  if s.isEmpty then some (y, mo, d, h, mi) else none

/-- The instant denoted by the visible appearance lines `Date: dd/mm/yyyy` and
`Time: HH:MM GMT +5:30`; `none` when the lines are not of that shape. -/
def instantOfLines (dateLine timeLine : List Nat) :
    Option (Nat × Nat × Nat × Nat × Nat) := do
  let s ← dropLit dateLabel dateLine
  let (d, s) ← read2 s
  let s ← dropLit [47] s
  let (mo, s) ← read2 s
  let s ← dropLit [47] s
  let (y, s) ← read4 s
  if s.isEmpty then
    let u ← dropLit timeLabel timeLine
    let (h, u) ← read2 u
    let u ← dropLit [58] u
    let (mi, u) ← read2 u
    let u ← dropLit gmtTail u
    if u.isEmpty then some (y, mo, d, h, mi) else none
  else none
/-! ## Incremental signing engine (`utils.py`)

A PDF byte stream is a list of tokens: ordinary content bytes, or the block a
signing step appends — an incremental revision carrying a signature dictionary,
the signer's certificate and a detached CMS value that stores the digest of
exactly the byte stream handed to `endesive_cms.sign`. The engine writes the
previous bytes followed by the new revision, so every revision's digest covers
everything before it in the file. -/

/-- The signer's certificate as loaded from the PKCS#12 bundle by
`load_certificate_data`. -/
structure SigningCert where
  serialNumber : Nat
  certSize : Nat
deriving Repr, DecidableEq

/-- A signature dictionary as assembled in `sign_pdf_multi_page_with_proper_mdp`
(the `certify_dct` and `page_sig_dct` literals), including the merged-in
appearance fields. -/
structure SigDict where
  sigflags : Nat
  sigpage : Nat
  sigfield : String
  auto_sigfield : Bool
  signaturebox : Option (Nat × Nat × Nat × Nat)
  subfilter : String
  location : List Nat
  contact : List Nat
  signingdate : List Nat
  certification_level : Option Nat
  docmdp : Option Nat
  appearance : Option AppearanceDict
deriving Repr, DecidableEq

/-- One token of a PDF byte stream. -/
inductive Seg where
  | content : Nat → Seg
  | sigRev : SigDict → SigningCert → List Nat → Seg
deriving Repr, DecidableEq

/-- Whether a token is an ordinary content byte (an unsigned input document is
all content). -/
def isContent : Seg → Bool
  | .content _ => true
  | .sigRev _ _ _ => false

/-- Flattening of one token into digest input bytes. -/
def encodeSeg : Seg → List Nat
  | .content b => [0, b]
  | .sigRev _ c dg => [1, c.serialNumber, dg.length] ++ dg

/-- The message digest of a byte stream (the model of the SHA-256 value a
detached CMS signature commits to). -/
def digest (doc : List Seg) : List Nat := doc.flatMap encodeSeg

/-- `endesive_cms.sign(data, dct, key, cert, ..., "sha256")`: the incremental
update to append — one revision holding the dictionary, the signer's
certificate and the digest of exactly the input byte stream. -/
def endesive_sign (data : List Seg) (dct : SigDict) (cert : SigningCert) :
    List Seg :=
  [Seg.sigRev dct cert (digest data)]

/-- The UTC offset suffix `+00` `'` `00` `'` used in the certification
signature's signing date. -/
def utcOffset : List Nat := [43, 48, 48, 39, 48, 48, 39]

/-- The `certify_dct` literal of `sign_pdf_multi_page_with_proper_mdp`:
invisible (no `signaturebox`), certification level 1 and explicit DocMDP 1 —
no changes allowed. -/
def certify_dct (info : SignerInfo) (utcNow : LocalTime) : SigDict :=
  { sigflags := 3
    sigpage := 0
    sigfield := "CertificationSig"
    auto_sigfield := true
    signaturebox := none
    subfilter := "/adbe.pkcs7.detached"
    location := info.locality
    contact := info.email
    signingdate := pdfDateString utcNow utcOffset
    certification_level := some 1
    docmdp := some 1
    appearance := none }

/-- The signature box fixed in `SignatureAppearance.__init__`. -/
def signatureBox : Nat × Nat × Nat × Nat := (450, 50, 580, 120)

/-- The `page_sig_dct` literal built for page index `page_num`: a visible,
non-certifying approval signature whose appearance fields come from
`build_appearance_dict`. -/
def page_sig_dct (info : SignerInfo) (chennaiNow : LocalTime) (page_num : Nat) :
    SigDict :=
  { sigflags := 3
    sigpage := page_num
    sigfield := "ApprovalSignature_Page" ++ toString (page_num + 1)
    auto_sigfield := true
    signaturebox := some signatureBox
    subfilter := "/adbe.pkcs7.detached"
    location := (build_appearance_dict info chennaiNow).location
    contact := (build_appearance_dict info chennaiNow).contact
    signingdate := (build_appearance_dict info chennaiNow).signingdate
    certification_level := none
    docmdp := none
    appearance := some (build_appearance_dict info chennaiNow) }

/-- The per-page loop of `sign_pdf_multi_page_with_proper_mdp` (STEP 2): for
each page index in order, re-read the byte stream produced so far, sign it,
and write those bytes followed by the new revision. -/
def approvalLoop (info : SignerInfo) (cert : SigningCert)
    (clock : Nat → LocalTime) : List Seg → List Nat → List Seg
  | doc, [] => doc
  | doc, k :: rest =>
      approvalLoop info cert clock
        (doc ++ endesive_sign doc (page_sig_dct info (clock k) k) cert) rest

/-- `sign_pdf_multi_page_with_proper_mdp`, with certificate loading and file
plumbing abstracted into parameters (`clock k` is the time sampled while
signing page `k`): STEP 1 signs the entire input with the certification
dictionary and appends that revision; STEP 2 applies one approval signature per
page of the certified document (`n` is the page count `get_pdf_page_count`
reports; signature revisions add no pages). -/
def sign_pdf_multi_page_with_proper_mdp (info : SignerInfo) (cert : SigningCert)
    (tCert : LocalTime) (clock : Nat → LocalTime) (input : List Seg) (n : Nat) :
    List Seg :=
  let certified := input ++ endesive_sign input (certify_dct info tCert) cert
  approvalLoop info cert clock certified (List.range n)

/-- The byte stream after revision `k`: revision 0 is the certified document,
revision `k + 1` appends the approval signature for page index `k`, computed
over the full previous stream. -/
def docAfter (info : SignerInfo) (cert : SigningCert) (tCert : LocalTime)
    (clock : Nat → LocalTime) (input : List Seg) : Nat → List Seg
  | 0 => input ++ endesive_sign input (certify_dct info tCert) cert
  | k + 1 =>
      docAfter info cert tCert clock input k ++
        endesive_sign (docAfter info cert tCert clock input k)
          (page_sig_dct info (clock k) k) cert

/-- The signature revisions of a byte stream in file order, each paired with
its dictionary, signer certificate, stored digest, and the byte stream that
precedes it in the file (`pre` accumulates the bytes already walked). -/
def sigRevsFrom (pre : List Seg) :
    List Seg → List (SigDict × SigningCert × List Nat × List Seg)
  | [] => []
  | Seg.content b :: rest => sigRevsFrom (pre ++ [Seg.content b]) rest
  | Seg.sigRev d c dg :: rest =>
      (d, c, dg, pre) :: sigRevsFrom (pre ++ [Seg.sigRev d c dg]) rest

/-- The signature revisions of a whole document. -/
def sigRevs (doc : List Seg) : List (SigDict × SigningCert × List Nat × List Seg) :=
  sigRevsFrom [] doc

/-- `endesive.pdf.verify(pdf_data, certs)`: one result per signature in file
order — `(signature field name, certificate byte length, signature_ok,
hash_ok)`. `hash_ok` recomputes the digest over the bytes that existed when the
revision was created and compares it with the digest stored in the CMS value;
`signature_ok` checks the CMS signature itself, which in this model is
structurally intact. Chain and revocation status are not validated (the
repository's wrapper notes exactly this). -/
def endesive_verify (pdf_data : List Seg) (_certs : List SigningCert) :
    List (String × Nat × Bool × Bool) :=
  (sigRevs pdf_data).map fun r =>
    (r.1.sigfield, r.2.1.certSize, true, r.2.2.1 == digest r.2.2.2)

/-- One entry of `verify_pdf_signature`'s result list — the tuple
`(signature_name, valid, details)` with the details dict flattened. Its fields
are exactly the keys the code writes: no chain validity, no revocation status
and no permission level is reported. -/
structure VerifyRecord where
  signature_name : String
  valid : Bool
  cryptographically_valid : Bool
  hash_ok : Bool
  certificate_size : Nat
deriving Repr, DecidableEq

/-- `verify_pdf_signature`: call the endesive verifier with an empty trusted
list (the code passes `[]`) and repackage each 5-tuple as
`(name, signature_ok and hash_ok, details)`. The function takes no trust roots
and no CRL. -/
def verify_pdf_signature (pdf_data : List Seg) : List VerifyRecord :=
  (endesive_verify pdf_data []).map fun r =>
    { signature_name := r.1
      valid := r.2.2.1 && r.2.2.2
      cryptographically_valid := r.2.2.1
      hash_ok := r.2.2.2
      certificate_size := r.2.1 }

/-- The specification's revocation contract for verification: a signature whose
signing certificate appears (by serial number) on the CRL is reported invalid
by the verifier, even when cryptographically valid. -/
def revokedReportedInvalid (pdf_data : List Seg) (crl : List Nat) : Prop :=
  ∀ p ∈ sigRevs pdf_data, p.2.1.serialNumber ∈ crl →
    ∀ r ∈ verify_pdf_signature pdf_data, r.signature_name = p.1.sigfield →
      r.valid = false

/-! ## Failure injection for the signing paths (`utils.py`)

Step numbering of one signing run: step 0 is `load_certificate_data` (raises on
a missing bundle or corrupt/wrongly-encrypted key material), step 1 is the
certification signing, step `2 + k` is the approval signing of page `k`, and
step `2 + n` is the final `shutil.move` of the temp file to the output path.
All intermediate writes go to a fresh temporary directory removed in the
`finally` block; the output path is written only by the final move. -/

/-- Failure-injection oracle: `failAt = some i` makes step `i` raise. -/
def stepFails (failAt : Option Nat) (i : Nat) : Bool := failAt == some i

/-- The page loop with failure injection: page `k`'s signing step either raises
(propagating the exception as `none`) or appends its revision. -/
def pageLoopRun (info : SignerInfo) (cert : SigningCert)
    (clock : Nat → LocalTime) (failAt : Option Nat) :
    List Seg → List Nat → Option (List Seg)
  | doc, [] => some doc
  | doc, k :: rest =>
      if stepFails failAt (2 + k) then none
      else pageLoopRun info cert clock failAt
        (doc ++ endesive_sign doc (page_sig_dct info (clock k) k) cert) rest

/-- `sign_pdf_multi_page_with_proper_mdp` under failure injection, returning
the function's result (`none` = exception propagated to the caller) and the
final content of the output path (`none` = never written). Every exception is
logged and re-raised; the output path is only written by the final move. -/
def proper_mdp_run (info : SignerInfo) (cert : SigningCert) (tCert : LocalTime)
    (clock : Nat → LocalTime) (failAt : Option Nat) (input : List Seg)
    (n : Nat) : Option (List Seg) × Option (List Seg) :=
  if stepFails failAt 0 then (none, none)
  else if stepFails failAt 1 then (none, none)
  else
    let certified := input ++ endesive_sign input (certify_dct info tCert) cert
    match pageLoopRun info cert clock failAt certified (List.range n) with
    | none => (none, none)
    | some finalDoc =>
        if stepFails failAt (2 + n) then (none, none)
        else (some finalDoc, some finalDoc)

/-- `sign_pdf_multi_page` (the legacy path) under failure injection: the same
signing steps, but the exception handler wrapped around its `try` block copies
the original input file to the output path whenever the output does not yet
exist, and only then re-raises. `load_certificate_data` (step 0) is called
before the `try` block, so a load failure propagates without running that
handler and the output stays unwritten; every later step fails inside the
`try`, so its exception reaches the copying handler. -/
def legacy_run (info : SignerInfo) (cert : SigningCert) (tCert : LocalTime)
    (clock : Nat → LocalTime) (failAt : Option Nat) (input : List Seg)
    (n : Nat) : Option (List Seg) × Option (List Seg) :=
  if stepFails failAt 0 then (none, none)
  else if stepFails failAt 1 then (none, some input)
  else
    let certified := input ++ endesive_sign input (certify_dct info tCert) cert
    match pageLoopRun info cert clock failAt certified (List.range n) with
    | none => (none, some input)
    | some finalDoc =>
        if stepFails failAt (2 + n) then (none, some input)
        else (some finalDoc, some finalDoc)

/-- A concrete signer identity for counterexamples and witnesses. -/
def infoCex : SignerInfo :=
  { common_name := [97, 114, 117, 108], organization := [],
    organizational_unit := [], country := [], state := [],
    locality := [], email := [] }

/-- A concrete signing certificate with serial number 5. -/
def certCex : SigningCert := { serialNumber := 5, certSize := 800 }

/-- A concrete local time for counterexamples and witnesses. -/
def timeCex : LocalTime :=
  { year := 2025, month := 6, day := 20, hour := 11, minute := 44, second := 7 }

/-- A concrete signed document: a one-content-byte, one-page input signed by
the engine with `certCex`. -/
def docCex : List Seg :=
  sign_pdf_multi_page_with_proper_mdp infoCex certCex timeCex
    (fun _ => timeCex) [Seg.content 0] 1

/-! ## Theorems -/

/-! ## Closed form of serial allocation -/

/-- Unfolding lemma for a single allocation at the head of a trace. -/
theorem issueSerials_cons (s : CAFiles) (n : Nat) :
    issueSerials s (n + 1) =
      ((get_next_serial_number s).1 ::
         (issueSerials (get_next_serial_number s).2 n).1,
       (issueSerials (get_next_serial_number s).2 n).2) := rfl

/-- Allocating `n + 1` serials starting from state `s` returns the consecutive
values `serialVal s, serialVal s + 1, ...`. -/
theorem issueSerials_fst (n : Nat) (s : CAFiles) :
    (issueSerials s (n + 1)).1 =
      (List.range (n + 1)).map (fun i => serialVal s + i) := by
  induction n generalizing s with
  | zero =>
      simp [issueSerials, get_next_serial_number, List.range_succ]
  | succ n ih =>
      rw [issueSerials_cons, ih]
      have hs' : serialVal (get_next_serial_number s).2 = serialVal s + 1 := rfl
      rw [hs', List.range_succ_eq_map (n + 1)]
      simp only [List.map_cons, List.map_map, Nat.add_zero]
      show _ :: _ = _ :: _
      congr 1
      apply List.map_congr_left
      intro i _
      simp only [Function.comp_apply]
      omega

/-- Allocating `n + 1` serials leaves the counter file at `serialVal s + (n + 1)`
and every other component of the state unchanged. -/
theorem issueSerials_snd (n : Nat) (s : CAFiles) :
    (issueSerials s (n + 1)).2 =
      { s with serialFile := some (serialVal s + (n + 1)) } := by
  induction n generalizing s with
  | zero =>
      simp [issueSerials, get_next_serial_number]
  | succ n ih =>
      rw [issueSerials_cons, ih]
      have hs' : serialVal (get_next_serial_number s).2 = serialVal s + 1 := rfl
      rw [hs']
      simp only [get_next_serial_number, CAFiles.mk.injEq, Option.some.injEq,
        true_and, and_true]
      omega

/-- Concatenating an allocation trace with a further trace from the resulting
state gives a single longer allocation trace. -/
theorem issueSerials_append (s : CAFiles) (n m : Nat) :
    (issueSerials s n).1 ++ (issueSerials (issueSerials s n).2 m).1 =
      (issueSerials s (n + m)).1 := by
  cases n with
  | zero => simp [issueSerials]
  | succ n =>
      cases m with
      | zero => simp [issueSerials]
      | succ m =>
          rw [issueSerials_fst n s, issueSerials_snd n s,
            issueSerials_fst m { s with serialFile := some (serialVal s + (n + 1)) }]
          have hmid : serialVal { s with serialFile := some (serialVal s + (n + 1)) } =
              serialVal s + (n + 1) := rfl
          rw [hmid, show n + 1 + (m + 1) = (n + m + 1) + 1 from by omega,
            issueSerials_fst (n + m + 1) s]
          conv_rhs =>
            rw [show n + m + 1 + 1 = (n + 1) + (m + 1) from by omega,
              List.range_add, List.map_append, List.map_map]
          congr 1
          apply List.map_congr_left
          intro i _
          simp only [Function.comp_apply]
          omega

/-- C1: serial numbers allocated by the CA are strictly increasing and never
reused. For every allocation trace (first conjunct: traces compose across
process restarts, since the counter is a persisted file), the returned serials
are pairwise strictly increasing (second conjunct), and each call persists the
incremented counter in the post-state — that is, before the serial is handed
back — so the stored counter always exceeds the value just returned (third
conjunct). -/
theorem serials_strictly_increasing (s : CAFiles) (n m : Nat) :
    (issueSerials s n).1 ++ (issueSerials (issueSerials s n).2 m).1 =
      (issueSerials s (n + m)).1 ∧
    (issueSerials s n).1.Pairwise (· < ·) ∧
    (get_next_serial_number s).2.serialFile =
      some ((get_next_serial_number s).1 + 1) := by
  refine ⟨issueSerials_append s n m, ?_, rfl⟩
  cases n with
  | zero => simp [issueSerials]
  | succ n =>
      rw [issueSerials_fst n s]
      refine List.Pairwise.map _ (fun a b h => ?_) (List.pairwise_lt_range (n + 1))
      omega

/-- C4: CA bootstrap is idempotent. The first conjunct: a second
`load_ca_certificate` performed after any first one returns the very same root
certificate and key (hence the same serial number and public key) and leaves
the state of the first call untouched, so no new key material is generated and
no persisted CA state is modified. The second conjunct: when both root files
are already present, loading returns exactly the stored certificate and key and
changes nothing. -/
theorem bootstrap_idempotent (s : CAFiles) :
    load_ca_certificate (load_ca_certificate s).2 = load_ca_certificate s ∧
    (∀ c k, s.caCert = some c → s.caKey = some k →
      load_ca_certificate s = ((c, k), s)) := by
  constructor
  · match hc : s.caCert, hk : s.caKey with
    | some c, some k =>
        simp [load_ca_certificate, hc, hk]
    | some c, none =>
        simp [load_ca_certificate, hc, hk, create_ca_certificate]
    | none, ko =>
        cases ko <;> simp [load_ca_certificate, hc, create_ca_certificate]
  · intro c k hc hk
    simp [load_ca_certificate, hc, hk]

/-- Witness for `bootstrap_idempotent`: a concrete state with both root files
present, on which loading returns the stored pair unchanged. -/
theorem bootstrap_idempotent_witness :
    load_ca_certificate
        { caCert := some ((create_ca_certificate
            { caCert := none, caKey := none, serialFile := none,
              now := 0, entropy := 0 }).1.1)
          caKey := some { keySize := 4096, keyId := 0 }
          serialFile := some 7
          now := 5
          entropy := 1 } =
      (((create_ca_certificate
            { caCert := none, caKey := none, serialFile := none,
              now := 0, entropy := 0 }).1.1,
        ({ keySize := 4096, keyId := 0 } : KeyPair)),
       { caCert := some ((create_ca_certificate
            { caCert := none, caKey := none, serialFile := none,
              now := 0, entropy := 0 }).1.1)
         caKey := some { keySize := 4096, keyId := 0 }
         serialFile := some 7
         now := 5
         entropy := 1 }) :=
  ((bootstrap_idempotent _).2 _ _ rfl rfl)

/-- C5: bootstrap from an empty store. When no persisted root exists (one of
the root files is absent), `load_ca_certificate` creates the root: the key is
4096-bit RSA (at least the 3072-bit strength the spec demands), the certificate
is self-signed over that key with `CA:true`, `keyCertSign` and `cRLSign`
usages, a `365 * 10`-day validity window, serial number `1`; both files are
persisted and the serial counter file is initialized to `2`. -/
theorem bootstrap_fresh_root (s : CAFiles)
    (h : s.caCert = none ∨ s.caKey = none) :
    (load_ca_certificate s).1.1.publicKey.keySize = 4096 ∧
    3072 ≤ (load_ca_certificate s).1.1.publicKey.keySize ∧
    (load_ca_certificate s).1.1.publicKey = (load_ca_certificate s).1.2 ∧
    (load_ca_certificate s).1.1.issuerCN = (load_ca_certificate s).1.1.subjectCN ∧
    (load_ca_certificate s).1.1.isCA = true ∧
    (load_ca_certificate s).1.1.keyCertSign = true ∧
    (load_ca_certificate s).1.1.crlSign = true ∧
    (load_ca_certificate s).1.1.notAfter =
      (load_ca_certificate s).1.1.notBefore + 365 * 10 * secondsPerDay ∧
    (load_ca_certificate s).1.1.serialNumber = 1 ∧
    (load_ca_certificate s).2.caCert = some (load_ca_certificate s).1.1 ∧
    (load_ca_certificate s).2.caKey = some (load_ca_certificate s).1.2 ∧
    (load_ca_certificate s).2.serialFile = some 2 := by
  have hload : load_ca_certificate s = create_ca_certificate s := by
    match hc : s.caCert, hk : s.caKey with
    | some c, some k =>
        rcases h with h | h
        · rw [hc] at h; exact absurd h (by simp)
        · rw [hk] at h; exact absurd h (by simp)
    | some c, none => simp [load_ca_certificate, hc, hk]
    | none, ko => simp [load_ca_certificate, hc]
  rw [hload]
  simp [create_ca_certificate]

/-- Witness for `bootstrap_fresh_root`: bootstrapping from a fully empty state. -/
theorem bootstrap_fresh_root_witness :
    ({ caCert := none, caKey := none, serialFile := none,
       now := 0, entropy := 0 } : CAFiles).caCert = none ∧
    (load_ca_certificate
      { caCert := none, caKey := none, serialFile := none,
        now := 0, entropy := 0 }).1.1.serialNumber = 1 ∧
    (load_ca_certificate
      { caCert := none, caKey := none, serialFile := none,
        now := 0, entropy := 0 }).2.serialFile = some 2 :=
  ⟨rfl,
   (bootstrap_fresh_root _ (Or.inl rfl)).2.2.2.2.2.2.2.2.1,
   (bootstrap_fresh_root _ (Or.inl rfl)).2.2.2.2.2.2.2.2.2.2.2⟩

/-- C10 (implicit): losing a single CA file silently restarts the CA and the
serial sequence. If either the root certificate file or the root key file is
missing — not only both — loading falls through to `create_ca_certificate`,
which generates a brand-new key pair (the entropy counter advances) and
rewrites the persisted serial counter to `2` regardless of the serial file's
existing contents, so the next allocated serial is `2` even when higher serials
were already issued. -/
theorem ca_file_loss_resets_serials (s : CAFiles)
    (h : s.caCert = none ∨ s.caKey = none) :
    load_ca_certificate s = create_ca_certificate s ∧
    (create_ca_certificate s).2.serialFile = some 2 ∧
    (create_ca_certificate s).2.entropy = s.entropy + 1 ∧
    (get_next_serial_number (load_ca_certificate s).2).1 = 2 := by
  have hload : load_ca_certificate s = create_ca_certificate s := by
    match hc : s.caCert, hk : s.caKey with
    | some c, some k =>
        rcases h with h | h
        · rw [hc] at h; exact absurd h (by simp)
        · rw [hk] at h; exact absurd h (by simp)
    | some c, none => simp [load_ca_certificate, hc, hk]
    | none, ko => simp [load_ca_certificate, hc]
  refine ⟨hload, rfl, rfl, ?_⟩
  rw [hload]
  rfl

/-- Witness for `ca_file_loss_resets_serials`: a state whose key file is gone
but whose serial file still records that serials up to 99 were issued; after
the silent re-creation the next serial handed out is `2` again. -/
theorem ca_file_loss_resets_serials_witness :
    ({ caCert := some ((create_ca_certificate
          { caCert := none, caKey := none, serialFile := none,
            now := 0, entropy := 0 }).1.1)
       caKey := none
       serialFile := some 100
       now := 50
       entropy := 3 } : CAFiles).caKey = none ∧
    (get_next_serial_number (load_ca_certificate
      { caCert := some ((create_ca_certificate
          { caCert := none, caKey := none, serialFile := none,
            now := 0, entropy := 0 }).1.1)
        caKey := none
        serialFile := some 100
        now := 50
        entropy := 3 }).2).1 = 2 :=
  ⟨rfl, (ca_file_loss_resets_serials _ (Or.inr rfl)).2.2.2⟩

/-- Counterexample to C7: on a freshly bootstrapped CA that has issued no leaf
certificate at all, revoking the never-issued serial `999` does not fail — the
CRL happily carries an entry for it. -/
theorem revoke_missing_serial_cex :
    ¬ revokeContract
        (create_ca_certificate
          { caCert := none, caKey := none, serialFile := none,
            now := 0, entropy := 0 }).2
        [999] := by
  intro hcl
  have := hcl 999 (by simp)
  rw [create_crl] at this
  simp [wasIssuedLeaf, serialVal, create_ca_certificate] at this

/-- C7 as amended: `create_crl` adds a revocation entry, stamped with the
current time, for exactly the serials in the supplied list — whether or not a
serial was ever issued by this CA — and never fails; `next_update` is fixed at
30 days after `last_update`. -/
theorem revocation_unconditional (s : CAFiles) (serials : List Nat) (n : Nat) :
    ((create_crl s serials).1.revoked.any
        (fun r => r.serialNumber == n) = true ↔ n ∈ serials) ∧
    (∀ r ∈ (create_crl s serials).1.revoked, r.revocationDate = s.now) ∧
    (create_crl s serials).1.lastUpdate = s.now ∧
    (create_crl s serials).1.nextUpdate =
      (create_crl s serials).1.lastUpdate + 30 * secondsPerDay := by
  refine ⟨?_, ?_, rfl, rfl⟩
  · simp [create_crl, List.any_map, List.any_eq_true, Function.comp]
  · intro r hr
    simp [create_crl, List.mem_map] at hr
    obtain ⟨a, _, ha⟩ := hr
    rw [← ha]


theorem dropLit_append (lit rest : List Nat) :
    dropLit lit (lit ++ rest) = some rest := by
  induction lit with
  | nil => rfl
  | cons t ts ih => simp [dropLit, ih]

theorem dropLit_self (lit : List Nat) : dropLit lit lit = some [] := by
  simpa using dropLit_append lit []

theorem dropLit_cons (b : Nat) (rest : List Nat) :
    dropLit [b] (b :: rest) = some rest := by
  simp [dropLit]

theorem read2_pad2 (n : Nat) (h : n < 100) (rest : List Nat) :
    read2 (pad2 n ++ rest) = some (n, rest) := by
  simp only [pad2, List.cons_append, List.nil_append, read2, readDigit]
  rw [if_pos (by omega), if_pos (by omega)]
  simp only [Option.some.injEq, Prod.mk.injEq, and_true]
  omega

theorem read4_pad4 (n : Nat) (h : n < 10000) (rest : List Nat) :
    read4 (pad4 n ++ rest) = some (n, rest) := by
  simp only [pad4, List.cons_append, List.nil_append, read4, readDigit]
  rw [if_pos (by omega), if_pos (by omega), if_pos (by omega), if_pos (by omega)]
  simp only [Option.some.injEq, Prod.mk.injEq, and_true]
  omega

theorem read4_pad4_nil (n : Nat) (h : n < 10000) :
    read4 (pad4 n) = some (n, []) := by
  simpa using read4_pad4 n h []

/-- C9: for every approval signature, the timestamp embedded in the signing
dictionary's CMS signing-date string and the date/time rendered in the visible
appearance text decode to the same instant (to the minute precision the visible
text carries), both expressed in the signer's local offset (+05:30): the code
derives both from the one `chennai_time` sample taken per
`build_appearance_dict` call. -/
theorem appearance_time_matches_cms_time (info : SignerInfo) (t : LocalTime)
    (hy : t.year < 10000) (hmo : t.month ≤ 12) (hd : t.day ≤ 31)
    (hh : t.hour < 24) (hmi : t.minute < 60) (hsec : t.second < 60) :
    instantOfPdfDate (build_appearance_dict info t).signingdate =
      some (t.year, t.month, t.day, t.hour, t.minute) ∧
    instantOfLines (build_appearance_dict info t).line2
        (build_appearance_dict info t).line3 =
      some (t.year, t.month, t.day, t.hour, t.minute) := by
  constructor
  · show instantOfPdfDate (pdfDateString t chennaiOffset) = _
    simp [instantOfPdfDate, pdfDateString, List.append_assoc, dropLit_append,
      dropLit_self, read4_pad4 t.year (by omega : t.year < 10000),
      read2_pad2 t.month (by omega : t.month < 100),
      read2_pad2 t.day (by omega : t.day < 100),
      read2_pad2 t.hour (by omega : t.hour < 100),
      read2_pad2 t.minute (by omega : t.minute < 100),
      read2_pad2 t.second (by omega : t.second < 100)]
  · show instantOfLines
        (dateLabel ++ (pad2 t.day ++ [47] ++ pad2 t.month ++ [47] ++ pad4 t.year))
        (timeLabel ++ (pad2 t.hour ++ [58] ++ pad2 t.minute ++ gmtTail)) = _
    simp [instantOfLines, List.append_assoc, dropLit_append, dropLit_self,
      dropLit_cons,
      read4_pad4_nil t.year (by omega : t.year < 10000),
      read2_pad2 t.month (by omega : t.month < 100),
      read2_pad2 t.day (by omega : t.day < 100),
      read2_pad2 t.hour (by omega : t.hour < 100),
      read2_pad2 t.minute (by omega : t.minute < 100)]

/-- Witness for `appearance_time_matches_cms_time`: a concrete signer and a
concrete Chennai-local instant. -/
theorem appearance_time_matches_cms_time_witness :
    instantOfPdfDate
        (build_appearance_dict
          { common_name := [97, 114, 117, 108], organization := [],
            organizational_unit := [], country := [], state := [],
            locality := [], email := [] }
          { year := 2025, month := 6, day := 20,
            hour := 11, minute := 44, second := 7 }).signingdate =
      some (2025, 6, 20, 11, 44) ∧
    instantOfLines
        (build_appearance_dict
          { common_name := [97, 114, 117, 108], organization := [],
            organizational_unit := [], country := [], state := [],
            locality := [], email := [] }
          { year := 2025, month := 6, day := 20,
            hour := 11, minute := 44, second := 7 }).line2
        (build_appearance_dict
          { common_name := [97, 114, 117, 108], organization := [],
            organizational_unit := [], country := [], state := [],
            locality := [], email := [] }
          { year := 2025, month := 6, day := 20,
            hour := 11, minute := 44, second := 7 }).line3 =
      some (2025, 6, 20, 11, 44) :=
  appearance_time_matches_cms_time _ _ (by decide) (by decide) (by decide)
    (by decide) (by decide) (by decide)

/-! ## Structure of the engine's output -/

theorem approvalLoop_docAfter (info : SignerInfo) (cert : SigningCert)
    (tCert : LocalTime) (clock : Nat → LocalTime) (input : List Seg) :
    ∀ m k, approvalLoop info cert clock
        (docAfter info cert tCert clock input k) (List.range' k m) =
      docAfter info cert tCert clock input (k + m) := by
  intro m
  induction m with
  | zero => intro k; simp [List.range', approvalLoop]
  | succ m ih =>
      intro k
      rw [List.range'_succ]
      show approvalLoop info cert clock
        (docAfter info cert tCert clock input k ++
          endesive_sign (docAfter info cert tCert clock input k)
            (page_sig_dct info (clock k) k) cert)
        (List.range' (k + 1) m) = _
      rw [show docAfter info cert tCert clock input k ++
            endesive_sign (docAfter info cert tCert clock input k)
              (page_sig_dct info (clock k) k) cert =
          docAfter info cert tCert clock input (k + 1) from rfl,
        ih (k + 1)]
      congr 1
      omega

/-- The signing engine produces exactly the byte stream after revision `n`. -/
theorem engine_eq_docAfter (info : SignerInfo) (cert : SigningCert)
    (tCert : LocalTime) (clock : Nat → LocalTime) (input : List Seg) (n : Nat) :
    sign_pdf_multi_page_with_proper_mdp info cert tCert clock input n =
      docAfter info cert tCert clock input n := by
  show approvalLoop info cert clock
      (docAfter info cert tCert clock input 0) (List.range n) = _
  rw [List.range_eq_range', approvalLoop_docAfter]
  simp

theorem sigRevsFrom_append (a b : List Seg) :
    ∀ pre, sigRevsFrom pre (a ++ b) =
      sigRevsFrom pre a ++ sigRevsFrom (pre ++ a) b := by
  induction a with
  | nil => intro pre; simp [sigRevsFrom]
  | cons x as ih =>
      intro pre
      cases x with
      | content bb =>
          simp only [List.cons_append, sigRevsFrom, List.append_eq]
          rw [ih, List.append_assoc]
          rfl
      | sigRev d c dg =>
          simp only [List.cons_append, sigRevsFrom, List.append_eq]
          rw [ih, List.append_assoc]
          rfl

theorem sigRevsFrom_content (a : List Seg) (h : a.all isContent = true) :
    ∀ pre, sigRevsFrom pre a = [] := by
  induction a with
  | nil => intro pre; rfl
  | cons x as ih =>
      intro pre
      cases x with
      | content b =>
          simp only [List.all_cons, Bool.and_eq_true] at h
          exact ih h.2 _
      | sigRev d c dg =>
          simp [List.all_cons, isContent] at h

/-- Closed form of the revision list of the engine's output: the certification
revision first, covering exactly the input, then one approval revision per page
in page order, each storing the digest of the full byte stream produced by the
previous revision. -/
theorem sigRevs_docAfter (info : SignerInfo) (cert : SigningCert)
    (tCert : LocalTime) (clock : Nat → LocalTime) (input : List Seg)
    (h : input.all isContent = true) (k : Nat) :
    sigRevs (docAfter info cert tCert clock input k) =
      (certify_dct info tCert, cert, digest input, input) ::
        (List.range k).map (fun j =>
          (page_sig_dct info (clock j) j, cert,
            digest (docAfter info cert tCert clock input j),
            docAfter info cert tCert clock input j)) := by
  induction k with
  | zero =>
      show sigRevsFrom []
        (input ++ endesive_sign input (certify_dct info tCert) cert) = _
      rw [sigRevsFrom_append, sigRevsFrom_content input h]
      simp [sigRevsFrom, endesive_sign]
  | succ k ih =>
      show sigRevsFrom []
        (docAfter info cert tCert clock input k ++
          endesive_sign (docAfter info cert tCert clock input k)
            (page_sig_dct info (clock k) k) cert) = _
      rw [sigRevsFrom_append]
      rw [show sigRevsFrom [] (docAfter info cert tCert clock input k) =
          sigRevs (docAfter info cert tCert clock input k) from rfl, ih]
      rw [List.range_succ]
      simp [sigRevsFrom, endesive_sign]

/-- Every revision of the engine's output stores the digest of exactly the
bytes that precede it in the file. -/
theorem engine_digests_sound (info : SignerInfo) (cert : SigningCert)
    (tCert : LocalTime) (clock : Nat → LocalTime) (input : List Seg) (n : Nat)
    (h : input.all isContent = true) :
    ∀ p ∈ sigRevs (sign_pdf_multi_page_with_proper_mdp info cert tCert clock
      input n), p.2.2.1 = digest p.2.2.2 := by
  rw [engine_eq_docAfter, sigRevs_docAfter info cert tCert clock input h n]
  intro p hp
  simp only [List.mem_cons, List.mem_map] at hp
  rcases hp with hp | ⟨j, _, hp⟩
  · subst hp; rfl
  · subst hp; rfl

/-- Records reported by `verify_pdf_signature` are valid whenever the stored
digests match the preceding bytes. -/
theorem verify_valid_of_sound (doc : List Seg)
    (hs : ∀ p ∈ sigRevs doc, p.2.2.1 = digest p.2.2.2) :
    ∀ r ∈ verify_pdf_signature doc, r.valid = true := by
  intro r hr
  simp only [verify_pdf_signature, endesive_verify, List.map_map,
    List.mem_map, Function.comp] at hr
  obtain ⟨p, hp, hr⟩ := hr
  subst hr
  simp [hs p hp]

theorem filter_map_eq_nil {α β : Type} (f : α → β) (q : β → Bool) (l : List α)
    (h : ∀ a, q (f a) = false) : (l.map f).filter q = [] := by
  induction l with
  | nil => rfl
  | cons a as ih => simp [List.filter, h a, ih]

theorem filter_map_eq_self {α β : Type} (f : α → β) (q : β → Bool) (l : List α)
    (h : ∀ a, q (f a) = true) : (l.map f).filter q = l.map f := by
  induction l with
  | nil => rfl
  | cons a as ih => simp [List.filter, h a, ih]

/-- C2: in every document the engine produces, the single certifying signature
(DocMDP permission 1 — no changes allowed, the invisible `certify_dct`) is the
first signing revision, applied before any approval signature, and each
approval signature `k` for the pages in order is appended as an incremental
revision whose signing input is exactly the byte stream produced by the
previous revision, so its stored digest covers all bytes up to and including
revision `k - 1`'s signature bytes (final conjunct: each step appends its
revision to the unchanged previous stream). -/
theorem certification_first_then_incremental_approvals
    (info : SignerInfo) (cert : SigningCert) (tCert : LocalTime)
    (clock : Nat → LocalTime) (input : List Seg) (n : Nat)
    (h : input.all isContent = true) :
    sign_pdf_multi_page_with_proper_mdp info cert tCert clock input n =
      docAfter info cert tCert clock input n ∧
    sigRevs (sign_pdf_multi_page_with_proper_mdp info cert tCert clock input n) =
      (certify_dct info tCert, cert, digest input, input) ::
        (List.range n).map (fun j =>
          (page_sig_dct info (clock j) j, cert,
            digest (docAfter info cert tCert clock input j),
            docAfter info cert tCert clock input j)) ∧
    (certify_dct info tCert).docmdp = some 1 ∧
    (certify_dct info tCert).certification_level = some 1 ∧
    (certify_dct info tCert).signaturebox = none ∧
    (∀ j, (page_sig_dct info (clock j) j).certification_level = none ∧
      (page_sig_dct info (clock j) j).docmdp = none ∧
      (page_sig_dct info (clock j) j).sigpage = j) ∧
    (∀ k, docAfter info cert tCert clock input (k + 1) =
      docAfter info cert tCert clock input k ++
        [Seg.sigRev (page_sig_dct info (clock k) k) cert
          (digest (docAfter info cert tCert clock input k))]) := by
  refine ⟨engine_eq_docAfter info cert tCert clock input n, ?_, rfl, rfl, rfl,
    fun j => ⟨rfl, rfl, rfl⟩, fun k => rfl⟩
  rw [engine_eq_docAfter]
  exact sigRevs_docAfter info cert tCert clock input h n

/-- Witness for `certification_first_then_incremental_approvals`: a concrete
two-content-byte, two-page input. -/
theorem certification_first_then_incremental_approvals_witness :
    ([Seg.content 7, Seg.content 8].all isContent = true) ∧
    sigRevs (sign_pdf_multi_page_with_proper_mdp infoCex certCex timeCex
        (fun _ => timeCex) [Seg.content 7, Seg.content 8] 2) =
      (certify_dct infoCex timeCex, certCex,
        digest [Seg.content 7, Seg.content 8],
        [Seg.content 7, Seg.content 8]) ::
        (List.range 2).map (fun j =>
          (page_sig_dct infoCex ((fun _ => timeCex) j) j, certCex,
            digest (docAfter infoCex certCex timeCex (fun _ => timeCex)
              [Seg.content 7, Seg.content 8] j),
            docAfter infoCex certCex timeCex (fun _ => timeCex)
              [Seg.content 7, Seg.content 8] j)) :=
  ⟨by decide,
   (certification_first_then_incremental_approvals infoCex certCex timeCex
      (fun _ => timeCex) [Seg.content 7, Seg.content 8] 2 (by decide)).2.1⟩

/-- C3: round-trip of signing and verification. For every `n`-page unsigned
input the engine signs, the verifier reports exactly `n + 1` signatures, all
valid; their field names are the certification field followed by the `n`
approval fields in page order; exactly one revision carries DocMDP permission
1 (no changes allowed) and it is the first, and exactly `n` revisions are
non-certifying approvals. -/
theorem sign_verify_roundtrip (info : SignerInfo) (cert : SigningCert)
    (tCert : LocalTime) (clock : Nat → LocalTime) (input : List Seg) (n : Nat)
    (h : input.all isContent = true) :
    (verify_pdf_signature (sign_pdf_multi_page_with_proper_mdp info cert tCert
      clock input n)).length = n + 1 ∧
    (∀ r ∈ verify_pdf_signature (sign_pdf_multi_page_with_proper_mdp info cert
      tCert clock input n), r.valid = true) ∧
    (verify_pdf_signature (sign_pdf_multi_page_with_proper_mdp info cert tCert
      clock input n)).map (fun r => r.signature_name) =
      "CertificationSig" ::
        (List.range n).map
          (fun k => "ApprovalSignature_Page" ++ toString (k + 1)) ∧
    ((sigRevs (sign_pdf_multi_page_with_proper_mdp info cert tCert clock input
      n)).filter (fun p => p.1.docmdp == some 1)).length = 1 ∧
    ((sigRevs (sign_pdf_multi_page_with_proper_mdp info cert tCert clock input
      n)).filter (fun p => p.1.docmdp == none)).length = n ∧
    ((sigRevs (sign_pdf_multi_page_with_proper_mdp info cert tCert clock input
      n)).head?).map (fun p => p.1.docmdp) = some (some 1) := by
  have hrevs := sigRevs_docAfter info cert tCert clock input h n
  have hengine := engine_eq_docAfter info cert tCert clock input n
  refine ⟨?_, verify_valid_of_sound _
      (engine_digests_sound info cert tCert clock input n h), ?_, ?_, ?_, ?_⟩
  · rw [hengine]
    simp [verify_pdf_signature, endesive_verify, hrevs]
  · rw [hengine]
    simp only [verify_pdf_signature, endesive_verify, List.map_map, hrevs]
    simp [Function.comp, page_sig_dct, certify_dct]
  · rw [hengine, hrevs]
    rw [List.filter_cons_of_pos (by rfl)]
    rw [filter_map_eq_nil _ _ _ (fun j => by rfl)]
    rfl
  · rw [hengine, hrevs]
    rw [List.filter_cons_of_neg (by simp [certify_dct])]
    rw [filter_map_eq_self _ _ _ (fun j => by rfl)]
    simp
  · rw [hengine, hrevs]
    rfl

/-- Witness for `sign_verify_roundtrip`: the concrete 3-page scenario — a
3-content-byte, 3-page unsigned input yields 1 + 3 = 4 reported signatures,
all valid. -/
theorem sign_verify_roundtrip_witness :
    ([Seg.content 1, Seg.content 2, Seg.content 3].all isContent = true) ∧
    (verify_pdf_signature (sign_pdf_multi_page_with_proper_mdp infoCex certCex
      timeCex (fun _ => timeCex) [Seg.content 1, Seg.content 2, Seg.content 3]
      3)).length = 3 + 1 ∧
    (∀ r ∈ verify_pdf_signature (sign_pdf_multi_page_with_proper_mdp infoCex
      certCex timeCex (fun _ => timeCex)
      [Seg.content 1, Seg.content 2, Seg.content 3] 3), r.valid = true) :=
  ⟨by decide,
   (sign_verify_roundtrip infoCex certCex timeCex (fun _ => timeCex)
      [Seg.content 1, Seg.content 2, Seg.content 3] 3 (by decide)).1,
   (sign_verify_roundtrip infoCex certCex timeCex (fun _ => timeCex)
      [Seg.content 1, Seg.content 2, Seg.content 3] 3 (by decide)).2.1⟩

/-- Counterexample to C8: `docCex` is signed by the certificate with serial
number 5, which is on the CRL `[5]`, yet every record the verifier reports is
cryptographically valid and marked valid overall — the revoked signature is
not reported chain-invalid (indeed `verify_pdf_signature` takes no trust roots
and no CRL at all, and its records carry no chain-validity field). -/
theorem verifier_ignores_revocation_cex :
    certCex.serialNumber ∈ ([5] : List Nat) ∧
    (∀ r ∈ verify_pdf_signature docCex,
      r.cryptographically_valid = true ∧ r.valid = true) ∧
    ¬ revokedReportedInvalid docCex [5] := by
  refine ⟨by decide, by decide, ?_⟩
  intro hcl
  have := hcl (certify_dct infoCex timeCex, certCex, digest [Seg.content 0],
      [Seg.content 0]) (by decide) (by decide)
      { signature_name := "CertificationSig", valid := true,
        cryptographically_valid := true, hash_ok := true,
        certificate_size := 800 } (by decide) (by decide)
  exact absurd this (by decide)

/-- C8 as amended: `verify_pdf_signature` checks only cryptographic validity —
each record's `valid` flag is exactly `cryptographically_valid and hash_ok`
(first conjunct, for every document), and on any engine output it reports
every signature valid regardless of the signing certificate, so a revoked
certificate's signature is reported exactly as a non-revoked one's (second
conjunct, for every signer certificate). The function receives no trust roots
and no CRL; the underlying library is invoked with an empty trusted list. -/
theorem verifier_reports_crypto_only (info : SignerInfo) (cert : SigningCert)
    (tCert : LocalTime) (clock : Nat → LocalTime) (input : List Seg) (n : Nat)
    (h : input.all isContent = true) :
    (∀ doc : List Seg, ∀ r ∈ verify_pdf_signature doc,
      r.valid = (r.cryptographically_valid && r.hash_ok)) ∧
    (∀ r ∈ verify_pdf_signature (sign_pdf_multi_page_with_proper_mdp info cert
      tCert clock input n), r.valid = true) := by
  constructor
  · intro doc r hr
    simp only [verify_pdf_signature, endesive_verify, List.map_map,
      List.mem_map, Function.comp] at hr
    obtain ⟨p, _, hr⟩ := hr
    subst hr
    rfl
  · exact verify_valid_of_sound _
      (engine_digests_sound info cert tCert clock input n h)

/-- Witness for `verifier_reports_crypto_only`: the certificate with serial 5
signing a one-page document. -/
theorem verifier_reports_crypto_only_witness :
    ([Seg.content 0] : List Seg).all isContent = true ∧
    (∀ r ∈ verify_pdf_signature docCex, r.valid = true) :=
  ⟨by decide,
   (verifier_reports_crypto_only infoCex certCex timeCex (fun _ => timeCex)
      [Seg.content 0] 1 (by decide)).2⟩

/-! ## Failure behaviour of the signing paths -/

theorem pageLoopRun_some (info : SignerInfo) (cert : SigningCert)
    (clock : Nat → LocalTime) (failAt : Option Nat) :
    ∀ pages doc d, pageLoopRun info cert clock failAt doc pages = some d →
      d = approvalLoop info cert clock doc pages := by
  intro pages
  induction pages with
  | nil =>
      intro doc d hd
      simp only [pageLoopRun, Option.some.injEq] at hd
      simp [approvalLoop, hd]
  | cons k rest ih =>
      intro doc d hd
      simp only [pageLoopRun] at hd
      by_cases hf : stepFails failAt (2 + k)
      · rw [if_pos hf] at hd
        exact absurd hd (by simp)
      · rw [if_neg hf] at hd
        exact ih _ _ hd

/-- Counterexample to C6: the legacy `sign_pdf_multi_page` path on a 2-page
input with the approval signing of page 0 (step 2) failing. The run raises
(result `none`) — so no failed-pages report is returned, there being no such
return shape at all — and its exception handler has copied the unsigned
original input to the output location, which is therefore not left untouched. -/
theorem legacy_failure_copies_input_cex :
    (legacy_run infoCex certCex timeCex (fun _ => timeCex) (some 2)
      [Seg.content 0] 2).1 = none ∧
    (legacy_run infoCex certCex timeCex (fun _ => timeCex) (some 2)
      [Seg.content 0] 2).2 = some [Seg.content 0] ∧
    (legacy_run infoCex certCex timeCex (fun _ => timeCex) (some 2)
      [Seg.content 0] 2).2 ≠ none := by
  refine ⟨by decide, by decide, by decide⟩

/-- C6 as amended: no failing run is ever reported as success and no
partially-approved bytes ever reach the output. For every failure injection:
if the proper-MDP path raises, the output location is never written (conjunct
1); if it succeeds, the output holds exactly the fully certified and fully
approved document (conjunct 2); if the legacy `sign_pdf_multi_page` raises at
any step inside its `try` block (any step after the certificate load), the
output location holds a copy of the unsigned original input — not a partial
document, but also not untouched (conjunct 3); a legacy success equals the full
engine output (conjunct 4); and corrupt key material — a failure of
`load_certificate_data`, step 0, which both paths run before their `try`
blocks — aborts both paths before any output byte is written (conjunct 5).
No failed-page list exists in either return shape, and certificate expiry is
never checked. -/
theorem signing_failure_atomicity (info : SignerInfo) (cert : SigningCert)
    (tCert : LocalTime) (clock : Nat → LocalTime) (failAt : Option Nat)
    (input : List Seg) (n : Nat) :
    ((proper_mdp_run info cert tCert clock failAt input n).1 = none →
      (proper_mdp_run info cert tCert clock failAt input n).2 = none) ∧
    (∀ d, (proper_mdp_run info cert tCert clock failAt input n).1 = some d →
      d = sign_pdf_multi_page_with_proper_mdp info cert tCert clock input n ∧
      (proper_mdp_run info cert tCert clock failAt input n).2 = some d) ∧
    (failAt ≠ some 0 →
      (legacy_run info cert tCert clock failAt input n).1 = none →
      (legacy_run info cert tCert clock failAt input n).2 = some input) ∧
    (∀ d, (legacy_run info cert tCert clock failAt input n).1 = some d →
      d = sign_pdf_multi_page_with_proper_mdp info cert tCert clock input n) ∧
    (failAt = some 0 →
      proper_mdp_run info cert tCert clock failAt input n = (none, none) ∧
      legacy_run info cert tCert clock failAt input n = (none, none)) := by
  by_cases h0 : stepFails failAt 0
  · refine ⟨?_, ?_, ?_, ?_, ?_⟩ <;>
      simp_all [proper_mdp_run, legacy_run, h0, stepFails]
  · by_cases h1 : stepFails failAt 1
    · refine ⟨?_, ?_, ?_, ?_, ?_⟩ <;>
        simp_all [proper_mdp_run, legacy_run, h0, h1, stepFails]
    · rcases hpl : pageLoopRun info cert clock failAt
          (input ++ endesive_sign input (certify_dct info tCert) cert)
          (List.range n) with _ | d0
      · refine ⟨?_, ?_, ?_, ?_, ?_⟩ <;>
          simp_all [proper_mdp_run, legacy_run, h0, h1, hpl, stepFails]
      · have hd0 : d0 = sign_pdf_multi_page_with_proper_mdp info cert tCert
            clock input n :=
          pageLoopRun_some info cert clock failAt _ _ _ hpl
        by_cases hmv : stepFails failAt (2 + n)
        · refine ⟨?_, ?_, ?_, ?_, ?_⟩ <;>
            simp_all [proper_mdp_run, legacy_run, h0, h1, hpl, hmv, stepFails]
        · refine ⟨?_, ?_, ?_, ?_, ?_⟩ <;>
            simp_all [proper_mdp_run, legacy_run, h0, h1, hpl, hmv, stepFails]

/-- Witness for `signing_failure_atomicity`: a failure inside the `try` block
(page 0's signing, step 2) makes the legacy path copy the input to the output
location, while corrupt key material (step 0 failing) on a concrete one-page
input aborts both paths with nothing written. -/
theorem signing_failure_atomicity_witness :
    ((some 2 : Option Nat) ≠ some 0) ∧
    (legacy_run infoCex certCex timeCex (fun _ => timeCex) (some 2)
      [Seg.content 0] 2).2 = some [Seg.content 0] ∧
    proper_mdp_run infoCex certCex timeCex (fun _ => timeCex) (some 0)
      [Seg.content 0] 1 = (none, none) ∧
    legacy_run infoCex certCex timeCex (fun _ => timeCex) (some 0)
      [Seg.content 0] 1 = (none, none) :=
  ⟨by decide,
   (signing_failure_atomicity infoCex certCex timeCex (fun _ => timeCex)
      (some 2) [Seg.content 0] 2).2.2.1 (by decide) (by decide),
   ((signing_failure_atomicity infoCex certCex timeCex (fun _ => timeCex)
      (some 0) [Seg.content 0] 1).2.2.2.2 rfl).1,
   ((signing_failure_atomicity infoCex certCex timeCex (fun _ => timeCex)
      (some 0) [Seg.content 0] 1).2.2.2.2 rfl).2⟩

end FTE
